import Mathlib

/-!
# Verification of the Vistora job-orchestration core

Shallow embedding of the credit ledger (`src/vistora/services/credits.py`),
pricing (`pricing.py`), model catalog (`model_catalog.py`), runners
(`runners.py`) and the job orchestrator (`job_manager.py`), together with
theorems settling the specification claims about them.

Modelling conventions:
* Python `int` is `ℤ` (`ℕ` where the source value is provably non-negative),
  Python `float` is `ℚ` (the source only ever does exact decimal arithmetic,
  comparisons, `min`/`max` on these values), Python `str` is `String`.
* A Python method that mutates `self` and may raise becomes a function from
  the state to `Except E (result × state)`; returning `.error e` models the
  raise, which in the source leaves the object unmutated — hence no state is
  produced in that branch.
* `uuid4` transaction/job identifiers and `utc_now` timestamps are
  nondeterministic and carry no logic; they are omitted from the embedded
  records (ids of jobs are threaded as explicit parameters).
* Persistence (`JsonStore`) is out of scope per the spec and is dropped from
  `_persist`.
-/

namespace Vistora

/-! ## Credit ledger — src/vistora/services/credits.py -/

inductive TxnKind where
  | topup
  | reserve
  | refund
deriving DecidableEq, Repr

/-- One ledger transaction (`CreditTxnView` minus the opaque uuid/timestamp). -/
structure Txn where
  user_id : String
  amount : ℤ
  kind : TxnKind
  reason : String
  ref_id : Option String
deriving DecidableEq, Repr

/-- The two `ValueError` shapes raised by the ledger: plain validation of the
amount, and the insufficient-credits failure carrying balance and requirement. -/
inductive CreditError where
  | validation (msg : String)
  | insufficient (balance required : ℤ)
deriving DecidableEq, Repr

/-- `str(exc)` for the embedded errors, matching the messages built in
`credits.py`. -/
def creditErrorText : CreditError → String
  | .validation msg => msg
  | .insufficient b r =>
      "insufficient credits: balance=" ++ toString b ++ ", required=" ++ toString r

/-- `CreditLedger` state: the balance dict (total function, absent users map to
0 as in `self._balances.get(user_id, 0)`) and the append-only transaction log. -/
structure LedgerState where
  balances : String → ℤ
  txns : List Txn

/-- `get_balance` (the balance integer; the view wrapper adds nothing). -/
def get_balance (l : LedgerState) (u : String) : ℤ :=
  l.balances u

/-- `_append_txn`. -/
def append_txn (l : LedgerState) (u : String) (amount : ℤ) (k : TxnKind)
    (reason : String) (ref : Option String) : Txn × LedgerState :=
  let txn : Txn := ⟨u, amount, k, reason, ref⟩
  (txn, { l with txns := l.txns ++ [txn] })

/-- `topup`. -/
def topup (l : LedgerState) (u : String) (amount : ℤ) (reason : String) :
    Except CreditError (Txn × LedgerState) :=
  if amount < 1 then .error (.validation "topup amount must be >= 1")
  else
    let l1 : LedgerState :=
      { l with balances := fun x => if x = u then l.balances u + amount else l.balances x }
    .ok (append_txn l1 u amount .topup reason none)

/-- `reserve`. -/
def reserve (l : LedgerState) (u : String) (amount : ℤ) (ref : String) :
    Except CreditError (Txn × LedgerState) :=
  if amount < 1 then .error (.validation "reserve amount must be >= 1")
  else
    let balance := l.balances u
    if balance < amount then .error (.insufficient balance amount)
    else
      let l1 : LedgerState :=
        { l with balances := fun x => if x = u then balance - amount else l.balances x }
      .ok (append_txn l1 u (-amount) .reserve "job_reserve" (some ref))

/-- `refund`. -/
def refund (l : LedgerState) (u : String) (amount : ℤ) (ref : String) :
    Except CreditError (Txn × LedgerState) :=
  if amount < 1 then .error (.validation "refund amount must be >= 1")
  else
    let l1 : LedgerState :=
      { l with balances := fun x => if x = u then l.balances u + amount else l.balances x }
    .ok (append_txn l1 u amount .refund "job_refund" (some ref))

/-! ## Pricing — src/vistora/services/pricing.py -/

/-- `QualityTier = Literal["balanced", "high", "ultra"]` from core.py. -/
inductive QualityTier where
  | balanced
  | high
  | ultra
deriving DecidableEq, Repr

/-- `QUALITY_MULTIPLIER`. -/
def QUALITY_MULTIPLIER : QualityTier → ℕ
  | .balanced => 1
  | .high => 2
  | .ultra => 4

/-- The first line of `estimate_credits`:
`duration = duration_hint_seconds if duration_hint_seconds and duration_hint_seconds > 0 else 120`
(`None` and `0` are falsy, non-positive values fail the comparison). -/
def durationOf (duration_hint_seconds : Option ℤ) : ℕ :=
  match duration_hint_seconds with
  | some d => if 0 < d then d.toNat else 120
  | none => 120

/-- `estimate_credits`; `math.ceil(duration / 120)` on a positive integer
`duration` is the rounded-up division `(duration + 119) / 120`. -/
def estimate_credits (duration_hint_seconds : Option ℤ) (quality_tier : QualityTier) : ℕ :=
  let duration := durationOf duration_hint_seconds
  let base := max 1 ((duration + 119) / 120)
  base * QUALITY_MULTIPLIER quality_tier

/-! ## Model catalog — src/vistora/services/model_catalog.py -/

structure QualityPreset where
  tier : String
  detector_model : String
  restorer_model : String
  refiner_model : Option String
  notes : String
deriving DecidableEq, Repr

def balancedPreset : QualityPreset :=
  ⟨"balanced", "yolo11x-seg-baseline", "basicvsrpp-v2-baseline", none,
   "Default quality baseline with low risk."⟩

def highPreset : QualityPreset :=
  ⟨"high", "rtdetrv2-l-candidate", "rvrt-base-candidate",
   some "swinir-video-refiner-candidate",
   "Quality-first recommended profile for most runs."⟩

def ultraPreset : QualityPreset :=
  ⟨"ultra", "mask2former-swinl-candidate", "vrt-large-candidate",
   some "diffusion-video-refiner-candidate",
   "Maximum quality profile for best visual output."⟩

def QUALITY_PRESETS : List QualityPreset :=
  [balancedPreset, highPreset, ultraPreset]

/-- Python `a or b` on an optional string: `None` and the empty string are
falsy and fall through to `b`. -/
def pyOrStr (o : Option String) (fallback : String) : String :=
  match o with
  | none => fallback
  | some s => if s = "" then fallback else s

/-- Python `a or b` on an optional int: `None` and `0` are falsy. -/
def pyOrInt (o : Option ℤ) (fallback : ℤ) : ℤ :=
  match o with
  | none => fallback
  | some n => if n = 0 then fallback else n

/-- The preset chosen by `resolve_models`:
`next((p for p in QUALITY_PRESETS if p.tier == quality_tier), None)`, with the
`None` fallback `QUALITY_PRESETS[1]` (which is the "high" preset). -/
def presetFor (quality_tier : String) : QualityPreset :=
  (QUALITY_PRESETS.find? (fun p => p.tier == quality_tier)).getD highPreset

/-- `resolve_models`: detector/restorer fall back through Python `or`
(so an empty-string override also falls back), the refiner through an
explicit `is not None` test. -/
def resolve_models (quality_tier : String)
    (detector_model restorer_model refiner_model : Option String) :
    String × String × Option String :=
  let preset := presetFor quality_tier
  (pyOrStr detector_model preset.detector_model,
   pyOrStr restorer_model preset.restorer_model,
   match refiner_model with
   | some r => some r
   | none => preset.refiner_model)

/-! ## Concrete ledger states used by witnesses -/

def emptyLedger : LedgerState := ⟨fun _ => 0, []⟩

def oneLedger : LedgerState := ⟨fun u => if u = "u1" then 1 else 0, []⟩

def tenLedger : LedgerState := ⟨fun u => if u = "u1" then 10 else 0, []⟩

/-! ## Ledger helper lemmas (shared by several claim proofs) -/

theorem reserve_ok_inv {l : LedgerState} {u : String} {a : ℤ} {ref : String}
    {txn : Txn} {l' : LedgerState} (h : reserve l u a ref = .ok (txn, l')) :
    1 ≤ a ∧ a ≤ get_balance l u ∧
    txn = ⟨u, -a, .reserve, "job_reserve", some ref⟩ ∧
    get_balance l' u = get_balance l u - a ∧
    (∀ v, v ≠ u → get_balance l' v = get_balance l v) ∧
    l'.txns = l.txns ++ [txn] := by
  by_cases h1 : a < 1
  · simp [reserve, h1] at h
  · by_cases h2 : l.balances u < a
    · simp [reserve, h1, h2] at h
    · simp only [reserve, h1, h2, if_false, append_txn, Except.ok.injEq, Prod.mk.injEq] at h
      obtain ⟨htxn, hl⟩ := h
      subst htxn
      subst hl
      refine ⟨by omega, by simp [get_balance]; omega, rfl, ?_, ?_, rfl⟩
      · simp [get_balance]
      · intro v hv
        simp [get_balance, hv]

theorem refund_ok_eq (l : LedgerState) (u : String) (a : ℤ) (ref : String)
    (h1 : 1 ≤ a) :
    refund l u a ref =
      .ok (⟨u, a, .refund, "job_refund", some ref⟩,
           { balances := fun x => if x = u then l.balances u + a else l.balances x,
             txns := l.txns ++ [⟨u, a, .refund, "job_refund", some ref⟩] }) := by
  have h2 : ¬ a < 1 := not_lt.2 h1
  simp [refund, h2, append_txn]

/-! ## Claim theorems about the ledger and the resolvers -/

/-- C10: for every amount strictly below 1, both `reserve` and `refund` fail
with the amount-validation error before touching any state (in this
state-threading embedding an `.error` result produces no updated ledger, so
the balance map and the transaction log are the caller's originals); in
particular `refund` with amount 0 or negative raises instead of appending a
refund transaction. -/
theorem reserve_refund_reject_small_amounts (l : LedgerState) (u : String)
    (a : ℤ) (ref : String) (h : a < 1) :
    reserve l u a ref = .error (.validation "reserve amount must be >= 1") ∧
    refund l u a ref = .error (.validation "refund amount must be >= 1") := by
  constructor <;> simp [reserve, refund, h]

theorem reserve_refund_reject_small_amounts_witness :
    ((0:ℤ) < 1 ∧
      reserve emptyLedger "u1" 0 "j1" = .error (.validation "reserve amount must be >= 1")) ∧
    ((-5:ℤ) < 1 ∧
      refund emptyLedger "u1" (-5) "j1" = .error (.validation "refund amount must be >= 1")) :=
  ⟨⟨by decide, (reserve_refund_reject_small_amounts emptyLedger "u1" 0 "j1" (by decide)).1⟩,
   ⟨by decide, (reserve_refund_reject_small_amounts emptyLedger "u1" (-5) "j1" (by decide)).2⟩⟩

/-- C3 counterexample: at reservation amount 0 with balance 0 the balance is
not strictly below the amount, so the claim promises a decrement by 0 and one
appended `reserve` transaction; the code instead raises the amount-validation
error (not InsufficientCredits) and appends nothing. -/
theorem reserve_zero_amount_counterexample :
    ¬ (get_balance emptyLedger "u1" < 0) ∧
    reserve emptyLedger "u1" 0 "j1" = .error (.validation "reserve amount must be >= 1") :=
  ⟨by decide, rfl⟩

/-- C3 (amended: restricted to amounts ≥ 1; amounts < 1 raise a validation
error instead, see the counterexample): `reserve` fails with
InsufficientCredits exactly when balance < amount, leaving balance and log
unchanged (no state is produced on `.error`); otherwise it decrements the
balance by exactly the amount and appends exactly one `reserve` transaction
of amount −amount. -/
theorem reserve_spec (l : LedgerState) (u : String) (a : ℤ) (ref : String)
    (h1 : 1 ≤ a) :
    (get_balance l u < a →
      reserve l u a ref = .error (.insufficient (get_balance l u) a)) ∧
    (a ≤ get_balance l u →
      ∃ txn l', reserve l u a ref = .ok (txn, l') ∧
        get_balance l' u = get_balance l u - a ∧
        (∀ v, v ≠ u → get_balance l' v = get_balance l v) ∧
        l'.txns = l.txns ++ [txn] ∧
        txn.kind = .reserve ∧ txn.amount = -a ∧ txn.user_id = u ∧
        txn.ref_id = some ref) := by
  have hnot : ¬ a < 1 := not_lt.2 h1
  constructor
  · intro h2
    have h2' : l.balances u < a := h2
    simp [reserve, get_balance, hnot, h2']
  · intro h2
    have h3 : ¬ l.balances u < a := not_lt.2 h2
    refine ⟨⟨u, -a, .reserve, "job_reserve", some ref⟩,
      { balances := fun x => if x = u then l.balances u - a else l.balances x,
        txns := l.txns ++ [⟨u, -a, .reserve, "job_reserve", some ref⟩] },
      ?_, ?_, ?_, rfl, rfl, rfl, rfl, rfl⟩
    · simp [reserve, hnot, h3, append_txn]
    · simp [get_balance]
    · intro v hv
      simp [get_balance, hv]

theorem reserve_spec_witness :
    ((1:ℤ) ≤ 3 ∧ get_balance oneLedger "u1" < 3 ∧
      reserve oneLedger "u1" 3 "j1" = .error (.insufficient 1 3)) ∧
    ((1:ℤ) ≤ 4 ∧ (4:ℤ) ≤ get_balance tenLedger "u1" ∧
      ∃ txn l', reserve tenLedger "u1" 4 "j1" = .ok (txn, l') ∧
        get_balance l' "u1" = get_balance tenLedger "u1" - 4) := by
  refine ⟨⟨by decide, by decide,
    (reserve_spec oneLedger "u1" 3 "j1" (by decide)).1 (by decide)⟩,
    ⟨by decide, by decide, ?_⟩⟩
  obtain ⟨txn, l', hok, hbal, -⟩ :=
    (reserve_spec tenLedger "u1" 4 "j1" (by decide)).2 (by decide)
  exact ⟨txn, l', hok, hbal⟩

/-- `math.ceil(n / 120)` for a natural `n` agrees with the rounded-up integer
division used in the embedding. -/
theorem ceil_div_120 (n : ℕ) : ((n + 119) / 120 : ℕ) = ⌈(n : ℚ) / 120⌉₊ := by
  rcases Nat.eq_zero_or_pos n with h0 | hpos
  · subst h0
    norm_num
  · set k := (n + 119) / 120 with hk
    have h1 : k * 120 ≤ n + 119 := by omega
    have h2 : n + 119 < (k + 1) * 120 := by omega
    have hk0 : k ≠ 0 := by omega
    have h3 : (k - 1) * 120 < n := by omega
    have h4 : n ≤ k * 120 := by omega
    rw [eq_comm, Nat.ceil_eq_iff hk0]
    constructor
    · rw [lt_div_iff₀ (by norm_num : (0:ℚ) < 120)]
      exact_mod_cast h3
    · rw [div_le_iff₀ (by norm_num : (0:ℚ) < 120)]
      exact_mod_cast h4

/-- C5: `estimate_credits` equals `max 1 ⌈duration/120⌉` times the tier
multiplier, where the duration falls back to 120 for a missing or
non-positive hint; the multiplier table is balanced 1, high 2, ultra 4; the
result is at least 1; and for a fixed hint the result is strictly increasing
across balanced < high < ultra. -/
theorem estimate_credits_spec (hint : Option ℤ) (tier : QualityTier) :
    estimate_credits hint tier =
      max 1 ⌈(durationOf hint : ℚ) / 120⌉₊ * QUALITY_MULTIPLIER tier ∧
    durationOf none = 120 ∧
    (∀ d : ℤ, d ≤ 0 → durationOf (some d) = 120) ∧
    (∀ d : ℤ, 0 < d → (durationOf (some d) : ℤ) = d) ∧
    QUALITY_MULTIPLIER .balanced = 1 ∧
    QUALITY_MULTIPLIER .high = 2 ∧
    QUALITY_MULTIPLIER .ultra = 4 ∧
    1 ≤ estimate_credits hint tier ∧
    estimate_credits hint .balanced < estimate_credits hint .high ∧
    estimate_credits hint .high < estimate_credits hint .ultra := by
  have hbase : 1 ≤ max 1 ((durationOf hint + 119) / 120) := le_max_left _ _
  have hbase0 : 0 < max 1 ((durationOf hint + 119) / 120) := hbase
  refine ⟨?_, rfl, ?_, ?_, rfl, rfl, rfl, ?_, ?_, ?_⟩
  · simp [estimate_credits, ceil_div_120]
  · intro d hd
    have : ¬ 0 < d := not_lt.2 hd
    simp [durationOf, this]
  · intro d hd
    simp [durationOf, hd, Int.toNat_of_nonneg hd.le]
  · have hm : 1 ≤ QUALITY_MULTIPLIER tier := by cases tier <;> decide
    calc 1 = 1 * 1 := (one_mul 1).symm
    _ ≤ max 1 ((durationOf hint + 119) / 120) * QUALITY_MULTIPLIER tier :=
      Nat.mul_le_mul hbase hm
    _ = estimate_credits hint tier := rfl
  · show max 1 ((durationOf hint + 119) / 120) * 1 <
      max 1 ((durationOf hint + 119) / 120) * 2
    exact mul_lt_mul_of_pos_left (by norm_num) hbase0
  · show max 1 ((durationOf hint + 119) / 120) * 2 <
      max 1 ((durationOf hint + 119) / 120) * 4
    exact mul_lt_mul_of_pos_left (by norm_num) hbase0

theorem estimate_credits_spec_witness :
    durationOf (some (-7)) = 120 ∧ (durationOf (some 121) : ℤ) = 121 ∧
    estimate_credits (some 121) .balanced < estimate_credits (some 121) .high := by
  obtain ⟨-, -, hneg, -, -, -, -, -, hmono, -⟩ :=
    estimate_credits_spec (some (-7)) QualityTier.balanced
  obtain ⟨-, -, -, hpos, -, -, -, -, hmono2, -⟩ :=
    estimate_credits_spec (some 121) QualityTier.balanced
  exact ⟨hneg (-7) (by decide), hpos 121 (by decide), hmono2⟩

/-- C6 counterexample: the explicitly given empty-string detector override is
not returned — Python `or` treats it as absent and the "high" preset's
detector id comes back instead. -/
theorem resolve_models_empty_override_counterexample :
    (resolve_models "high" (some "") none none).1 = "rtdetrv2-l-candidate" ∧
    "rtdetrv2-l-candidate" ≠ "" :=
  ⟨rfl, by decide⟩

/-- C6 (amended: a NON-EMPTY explicit override always wins for detector and
restorer, while an empty-string override falls back to the preset exactly
like an omitted one; for the refiner any non-None override — empty included —
wins): otherwise each role takes the tier preset's value; a tier matching no
preset falls back to the "high" preset instead of failing; and tier "high"
with no overrides yields the high preset's detector/restorer ids and a
non-null refiner id. -/
theorem resolve_models_spec (tier : String) (d r f : Option String) :
    (∀ s, d = some s → s ≠ "" → (resolve_models tier d r f).1 = s) ∧
    (∀ s, r = some s → s ≠ "" → (resolve_models tier d r f).2.1 = s) ∧
    (∀ s, f = some s → (resolve_models tier d r f).2.2 = some s) ∧
    ((d = none ∨ d = some "") →
      (resolve_models tier d r f).1 = (presetFor tier).detector_model) ∧
    ((r = none ∨ r = some "") →
      (resolve_models tier d r f).2.1 = (presetFor tier).restorer_model) ∧
    (f = none → (resolve_models tier d r f).2.2 = (presetFor tier).refiner_model) ∧
    (QUALITY_PRESETS.find? (fun p => p.tier == tier) = none →
      presetFor tier = highPreset) ∧
    resolve_models "high" none none none =
      ("rtdetrv2-l-candidate", "rvrt-base-candidate",
       some "swinir-video-refiner-candidate") := by
  refine ⟨?_, ?_, ?_, ?_, ?_, ?_, ?_, rfl⟩
  · intro s hs hne
    subst hs
    simp [resolve_models, pyOrStr, hne]
  · intro s hs hne
    subst hs
    simp [resolve_models, pyOrStr, hne]
  · intro s hs
    subst hs
    simp [resolve_models]
  · rintro (hd | hd) <;> subst hd <;> simp [resolve_models, pyOrStr]
  · rintro (hr | hr) <;> subst hr <;> simp [resolve_models, pyOrStr]
  · intro hf
    subst hf
    simp [resolve_models]
  · intro hfind
    simp [presetFor, hfind]

theorem resolve_models_spec_witness :
    (resolve_models "ultra" (some "my-detector") none none).1 = "my-detector" ∧
    (resolve_models "nonsense" none none none).1 = highPreset.detector_model ∧
    resolve_models "high" none none none =
      ("rtdetrv2-l-candidate", "rvrt-base-candidate",
       some "swinir-video-refiner-candidate") := by
  have h1 := (resolve_models_spec "ultra" (some "my-detector") none none).1
    "my-detector" rfl (by decide)
  have h2 := (resolve_models_spec "nonsense" none none none).2.2.2.1 (Or.inl rfl)
  have h3 := (resolve_models_spec "nonsense" none none none).2.2.2.2.2.2.1 (by decide)
  have h4 := (resolve_models_spec "high" none none none).2.2.2.2.2.2.2
  exact ⟨h1, by rw [h2, h3], h4⟩

/-! ## Job orchestrator — src/vistora/services/job_manager.py
and the simulated runner — src/vistora/services/runners.py -/

/-- `JobStatus = Literal["queued", "running", "done", "failed", "canceled"]`. -/
inductive JobStatus where
  | queued
  | running
  | done
  | failed
  | canceled
deriving DecidableEq, Repr

/-- A value of the request's free-form option map
(`dict[str, str | int | float | bool]`). -/
inductive OptValue where
  | str (s : String)
  | int (n : ℤ)
  | float (q : ℚ)
  | bool (b : Bool)
deriving DecidableEq, Repr

/-- `JobCreateRequest` (core.py); `profile_name` is transport-layer only and
omitted. -/
structure JobCreateRequest where
  input_path : String
  output_path : Option String
  user_id : String
  estimated_credits : Option ℤ
  duration_hint_seconds : Option ℤ
  runner : String
  quality_tier : QualityTier
  detector_model : Option String
  restorer_model : Option String
  refiner_model : Option String
  options : List (String × OptValue)
deriving DecidableEq, Repr

def tierStr : QualityTier → String
  | .balanced => "balanced"
  | .high => "high"
  | .ultra => "ultra"

/-- `ManagedJob` (job_manager.py) minus the opaque timestamps. -/
structure ManagedJob where
  id : String
  request : JobCreateRequest
  status : JobStatus
  stage : String
  progress : ℚ
  credits_reserved : ℤ
  error : Option String
deriving DecidableEq, Repr

/-- `JobManager.create_job` minus the enqueue side effect: resolve the models
and the credit estimate (`req.estimated_credits or estimate_credits(...)`),
build the resolved request via `model_copy(update=...)` — note it updates
only the four fields, `output_path` is NOT touched — and register the job in
`queued`. The `uuid4` id is threaded as a parameter. -/
def create_job (req : JobCreateRequest) (job_id : String) : ManagedJob :=
  let resolved := resolve_models (tierStr req.quality_tier)
    req.detector_model req.restorer_model req.refiner_model
  let estimated := pyOrInt req.estimated_credits
    (estimate_credits req.duration_hint_seconds req.quality_tier)
  { id := job_id,
    request := { req with
      detector_model := some resolved.1,
      restorer_model := some resolved.2.1,
      refiner_model := resolved.2.2,
      estimated_credits := some estimated },
    status := .queued, stage := "queued", progress := 0,
    credits_reserved := 0, error := none }

def updateJob (jobs : List (String × ManagedJob)) (job_id : String)
    (j : ManagedJob) : List (String × ManagedJob) :=
  jobs.map (fun p => if p.1 = job_id then (p.1, j) else p)

/-- `JobManager.cancel_job` over the job registry dict: `none` models the
not-found `None` return; only a `queued` job is moved to `canceled`, anything
else is returned unchanged. -/
def cancel_job (jobs : List (String × ManagedJob)) (job_id : String) :
    List (String × ManagedJob) × Option ManagedJob :=
  match jobs.lookup job_id with
  | none => (jobs, none)
  | some j =>
    if j.status = .queued then
      let j1 := { j with status := .canceled, stage := "canceled" }
      (updateJob jobs job_id j1, some j1)
    else (jobs, some j)

/-! ### Simulated runner (`DryRunRunner`) -/

/-- `isinstance(value, (int, float))` plus `float(value)`: Python `bool` is a
subclass of `int`, so a boolean override is numeric too. -/
def pyNumeric : OptValue → Option ℚ
  | .int n => some (n : ℚ)
  | .float q => some q
  | .bool b => some (if b then 1 else 0)
  | .str _ => none

/-- The tier-dependent sleep with the `stage_sleep` override
(`max(0.0, float(sleep_override))`). -/
def dryRunStageSleep (req : JobCreateRequest) : ℚ :=
  let base : ℚ :=
    if req.quality_tier = .ultra then 9/10
    else if req.quality_tier = .high then 7/10
    else 9/20
  match (req.options.lookup "stage_sleep").bind pyNumeric with
  | some v => max 0 v
  | none => base

/-- Python `str(·)` as applied to an optional model id inside the f-string. -/
def optStr : Option String → String
  | some s => s
  | none => "None"

/-- Python truthiness of an optional string (`if req.refiner_model:`). -/
def pyTruthy : Option String → Bool
  | some s => s != ""
  | none => false

/-- The ordered (stage, progress) callback list of `DryRunRunner.run`:
0.05, 0.18, 0.40, 0.78, optionally 0.90, 0.96, 1.0. -/
def dryRunStages (req : JobCreateRequest) : List (String × ℚ) :=
  [("probing", (1/20 : ℚ)), ("decoding", 9/50),
   ("detecting[" ++ optStr req.detector_model ++ "]", 2/5),
   ("restoring[" ++ optStr req.restorer_model ++ "]", 39/50)] ++
  (match req.refiner_model with
   | some s => if s = "" then [] else [("refining[" ++ s ++ "]", (9/10 : ℚ))]
   | none => []) ++
  [("encoding", (24/25 : ℚ)), ("muxing", 1)]

/-! ### The per-job execution procedure of `_run_loop` -/

/-- The runner interaction, abstracted: the (stage, progress) callbacks it
issues, then either a normal return or a raise carrying `str(exc)`. An
exception out of `build_runner` or before the first callback is `.err [] msg`. -/
inductive RunnerOutcome where
  | ok (callbacks : List (String × ℚ))
  | err (callbacks : List (String × ℚ)) (msg : String)

/-- `_set_stage`: progress clamped into [0, 1]. -/
def set_stage (j : ManagedJob) (stage : String) (progress : ℚ) : ManagedJob :=
  { j with stage := stage, progress := max 0 (min 1 progress) }

/-- `_on_done`. -/
def on_done (j : ManagedJob) : ManagedJob :=
  { j with status := .done, stage := "done", progress := 1 }

/-- The job-registry part of `_on_failure` (the refund lives in `failPath`). -/
def on_failure_job (j : ManagedJob) (e : String) : ManagedJob :=
  { j with status := .failed, stage := "failed", error := some e }

/-- The `running`/`"starting"`/0.01 transition at the top of the loop body. -/
def startJob (j : ManagedJob) : ManagedJob :=
  { j with status := .running, stage := "starting", progress := 1/100 }

/-- Route a callback list through `_set_stage`, collecting the successive job
states. -/
def applyStages (j : ManagedJob) : List (String × ℚ) → ManagedJob × List ManagedJob
  | [] => (j, [])
  | cb :: rest =>
    let j1 := set_stage j cb.1 cb.2
    let res := applyStages j1 rest
    (res.1, j1 :: res.2)

/-- Result of executing one job: final job state, final ledger, and the list
of successive job states written to the registry. -/
structure ExecResult where
  job : ManagedJob
  ledger : LedgerState
  trace : List ManagedJob

/-- `_on_failure`: mark the job failed with the error text and, when credits
were reserved, issue the compensating refund (outside the registry lock). The
`.error` branch of `refund` is unreachable here because the guard gives
`credits_reserved ≥ 1`. -/
def failPath (j : ManagedJob) (l : LedgerState) (e : String)
    (tr : List ManagedJob) : ExecResult :=
  let j1 := on_failure_job j e
  if 0 < j1.credits_reserved then
    match refund l j1.request.user_id j1.credits_reserved j1.id with
    | .ok pr => ⟨j1, pr.2, tr ++ [j1]⟩
    | .error _ => ⟨j1, l, tr ++ [j1]⟩
  else ⟨j1, l, tr ++ [j1]⟩

/-- One iteration of `JobManager._run_loop` for a dequeued job: skip a
canceled job untouched; otherwise mark it running, reserve
`request.estimated_credits` (a `None` there would raise a TypeError inside
`reserve`; unreachable for jobs made by `create_job`), record
`abs(reserve_txn.amount)` on the job, run the runner routing its callbacks
into stage/progress, then `_on_done` on return or `_on_failure` on a raise. -/
def executeJob (j : ManagedJob) (l : LedgerState) (outcome : RunnerOutcome) :
    ExecResult :=
  if j.status = .canceled then ⟨j, l, []⟩
  else
    let j1 := startJob j
    match j1.request.estimated_credits with
    | none => failPath j1 l "TypeError: NoneType is not comparable to int" [j1]
    | some amount =>
      match reserve l j1.request.user_id amount j1.id with
      | .error e => failPath j1 l (creditErrorText e) [j1]
      | .ok pr =>
        let j2 := { j1 with credits_reserved := |pr.1.amount| }
        match outcome with
        | .ok cbs =>
          let res := applyStages j2 cbs
          let j4 := on_done res.1
          ⟨j4, pr.2, [j1, j2] ++ res.2 ++ [j4]⟩
        | .err cbs msg =>
          let res := applyStages j2 cbs
          failPath res.1 pr.2 msg ([j1, j2] ++ res.2)

/-- Number of `refund` transactions for a given job id in the ledger log. -/
def refundCount (l : LedgerState) (job_id : String) : ℕ :=
  (l.txns.filter (fun t => t.kind == TxnKind.refund && t.ref_id == some job_id)).length

/-- The two guards of `reserve` passing: a valid amount covered by the
balance. -/
def reserveOk (l : LedgerState) (u : String) (a : ℤ) : Prop :=
  1 ≤ a ∧ a ≤ get_balance l u

/-! ### Concrete jobs used by witnesses and counterexamples -/

/-- The request of the repo test `test_job_manager_autofills_models_and_credits`:
`output_path` omitted, tier "high", runner "dry-run", no explicit models. -/
def testReq : JobCreateRequest :=
  { input_path := "in.mp4", output_path := none, user_id := "u1",
    estimated_credits := none, duration_hint_seconds := none,
    runner := "dry-run", quality_tier := .high,
    detector_model := none, restorer_model := none, refiner_model := none,
    options := [("stage_sleep", .int 0)] }

def job0 : ManagedJob :=
  create_job { testReq with estimated_credits := some 4 } "j0"

/-- The concrete successful reservation of 4 credits for `job0`, extracted by
evaluation; used by witnesses. -/
def reservedPair0 : Txn × LedgerState :=
  match reserve tenLedger "u1" 4 "j0" with
  | .ok pr => pr
  | .error _ => ⟨⟨"", 0, .topup, "", none⟩, tenLedger⟩

/-! ### Helper lemmas about the execution procedure -/

theorem reserve_ok_eq (l : LedgerState) (u : String) (a : ℤ) (ref : String)
    (h1 : 1 ≤ a) (h2 : a ≤ get_balance l u) :
    reserve l u a ref =
      .ok (⟨u, -a, .reserve, "job_reserve", some ref⟩,
        { balances := fun x => if x = u then l.balances u - a else l.balances x,
          txns := l.txns ++ [⟨u, -a, .reserve, "job_reserve", some ref⟩] }) := by
  have hn1 : ¬ a < 1 := not_lt.2 h1
  have hn2 : ¬ l.balances u < a := not_lt.2 h2
  simp [reserve, hn1, hn2, append_txn]

theorem reserve_error_of_not_ok (l : LedgerState) (u : String) (a : ℤ)
    (ref : String) (h : ¬ reserveOk l u a) :
    ∃ e, reserve l u a ref = .error e := by
  by_cases h1 : a < 1
  · exact ⟨.validation "reserve amount must be >= 1", by simp [reserve, h1]⟩
  · have h2 : l.balances u < a := by
      rcases not_and_or.1 h with h' | h'
      · omega
      · exact not_le.1 h'
    exact ⟨.insufficient (l.balances u) a, by simp [reserve, h1, h2]⟩

theorem applyStages_fst (cbs : List (String × ℚ)) (j : ManagedJob) :
    (applyStages j cbs).1.id = j.id ∧
    (applyStages j cbs).1.request = j.request ∧
    (applyStages j cbs).1.status = j.status ∧
    (applyStages j cbs).1.credits_reserved = j.credits_reserved ∧
    (applyStages j cbs).1.error = j.error := by
  induction cbs generalizing j with
  | nil => simp [applyStages]
  | cons cb rest ih =>
    simpa [applyStages, set_stage] using ih (set_stage j cb.1 cb.2)

theorem applyStages_trace (cbs : List (String × ℚ)) (j : ManagedJob) :
    ∀ s ∈ (applyStages j cbs).2,
      s.status = j.status ∧ s.credits_reserved = j.credits_reserved := by
  induction cbs generalizing j with
  | nil => simp [applyStages]
  | cons cb rest ih =>
    intro s hs
    simp only [applyStages, List.mem_cons] at hs
    rcases hs with hs | hs
    · subst hs
      simp [set_stage]
    · simpa [set_stage] using ih (set_stage j cb.1 cb.2) s hs

theorem applyStages_credits (cbs : List (String × ℚ)) (j : ManagedJob) :
    (applyStages j cbs).1.credits_reserved = j.credits_reserved :=
  (applyStages_fst cbs j).2.2.2.1

theorem executeJob_canceled (j : ManagedJob) (l : LedgerState)
    (outcome : RunnerOutcome) (h : j.status = .canceled) :
    executeJob j l outcome = ⟨j, l, []⟩ := by
  simp [executeJob, h]

theorem failPath_no_credits (j : ManagedJob) (l : LedgerState) (e : String)
    (tr : List ManagedJob) (h : j.credits_reserved ≤ 0) :
    failPath j l e tr = ⟨on_failure_job j e, l, tr ++ [on_failure_job j e]⟩ := by
  have h0 : ¬ 0 < (on_failure_job j e).credits_reserved := by
    simp [on_failure_job]
    omega
  simp [failPath, h0]

theorem failPath_with_credits (j : ManagedJob) (l : LedgerState) (e : String)
    (tr : List ManagedJob) (h : 1 ≤ j.credits_reserved) :
    failPath j l e tr =
      ⟨on_failure_job j e,
       { balances := fun x =>
           if x = j.request.user_id
           then l.balances j.request.user_id + j.credits_reserved
           else l.balances x,
         txns := l.txns ++
           [⟨j.request.user_id, j.credits_reserved, .refund, "job_refund",
             some j.id⟩] },
       tr ++ [on_failure_job j e]⟩ := by
  have h0 : (0:ℤ) < j.credits_reserved := by omega
  have hr := refund_ok_eq l j.request.user_id j.credits_reserved j.id h
  simp [failPath, on_failure_job, hr, h0]

theorem executeJob_reserve_error (j : ManagedJob) (l : LedgerState)
    (outcome : RunnerOutcome) (a : ℤ) (e : CreditError)
    (hq : ¬ j.status = .canceled) (hest : j.request.estimated_credits = some a)
    (he : reserve l j.request.user_id a j.id = .error e) :
    executeJob j l outcome =
      failPath (startJob j) l (creditErrorText e) [startJob j] := by
  simp [executeJob, hq, startJob, hest, he]

theorem executeJob_reserve_ok_ok (j : ManagedJob) (l : LedgerState)
    (cbs : List (String × ℚ)) (a : ℤ) (txn : Txn) (l1 : LedgerState)
    (hq : ¬ j.status = .canceled) (hest : j.request.estimated_credits = some a)
    (htxn : reserve l j.request.user_id a j.id = .ok (txn, l1)) :
    executeJob j l (.ok cbs) =
      ⟨on_done (applyStages { startJob j with credits_reserved := |txn.amount| } cbs).1,
       l1,
       [startJob j, { startJob j with credits_reserved := |txn.amount| }] ++
         (applyStages { startJob j with credits_reserved := |txn.amount| } cbs).2 ++
         [on_done (applyStages { startJob j with credits_reserved := |txn.amount| } cbs).1]⟩ := by
  simp [executeJob, hq, startJob, hest, htxn]

theorem refundCount_append_nonrefund (l l2 : LedgerState) (t : Txn)
    (jobId : String) (h : l2.txns = l.txns ++ [t]) (ht : t.kind = .reserve) :
    refundCount l2 jobId = refundCount l jobId := by
  simp [refundCount, h, List.filter_append, ht]

theorem refundCount_append_pair (l l2 : LedgerState) (t rt : Txn)
    (jobId : String) (h : l2.txns = l.txns ++ [t, rt]) (ht : t.kind = .reserve)
    (hrt : rt.kind = .refund) (hrr : rt.ref_id = some jobId) :
    refundCount l2 jobId = refundCount l jobId + 1 := by
  simp [refundCount, h, List.filter_append, ht, hrt, hrr]

theorem executeJob_reserve_ok_err (j : ManagedJob) (l : LedgerState)
    (cbs : List (String × ℚ)) (msg : String) (a : ℤ) (txn : Txn)
    (l1 : LedgerState)
    (hq : ¬ j.status = .canceled) (hest : j.request.estimated_credits = some a)
    (htxn : reserve l j.request.user_id a j.id = .ok (txn, l1)) :
    executeJob j l (.err cbs msg) =
      failPath (applyStages { startJob j with credits_reserved := |txn.amount| } cbs).1
        l1 msg
        ([startJob j, { startJob j with credits_reserved := |txn.amount| }] ++
          (applyStages { startJob j with credits_reserved := |txn.amount| } cbs).2) := by
  simp [executeJob, hq, startJob, hest, htxn]

/-! ## Claim theorems about the orchestrator -/

/-- C1: for every queued job with no prior reservation whose execution fails —
the credit reservation raises (any runner outcome), or the runner raises after
a successful reservation — the orchestrator sets the job `failed` with the
raised error text in `error`; when no credits were reserved the ledger is
untouched and no refund is issued; when credits had been reserved, exactly one
compensating `refund` transaction of exactly the reserved amount is appended
(after the reserve transaction) and the user's balance returns to its
pre-reservation value. -/
theorem executeJob_failure_compensation (j : ManagedJob) (l : LedgerState)
    (cbs : List (String × ℚ)) (msg : String) (a : ℤ)
    (hq : j.status = .queued) (hcr : j.credits_reserved = 0)
    (hest : j.request.estimated_credits = some a) :
    (∀ (outcome : RunnerOutcome) (e : CreditError),
      reserve l j.request.user_id a j.id = .error e →
      (executeJob j l outcome).job.status = .failed ∧
      (executeJob j l outcome).job.error = some (creditErrorText e) ∧
      (executeJob j l outcome).ledger = l ∧
      refundCount (executeJob j l outcome).ledger j.id = refundCount l j.id) ∧
    (∀ (txn : Txn) (l1 : LedgerState),
      reserve l j.request.user_id a j.id = .ok (txn, l1) →
      (executeJob j l (.err cbs msg)).job.status = .failed ∧
      (executeJob j l (.err cbs msg)).job.error = some msg ∧
      get_balance (executeJob j l (.err cbs msg)).ledger j.request.user_id =
        get_balance l j.request.user_id ∧
      (executeJob j l (.err cbs msg)).ledger.txns =
        l.txns ++ [txn, ⟨j.request.user_id, a, .refund, "job_refund", some j.id⟩] ∧
      refundCount (executeJob j l (.err cbs msg)).ledger j.id =
        refundCount l j.id + 1) := by
  have hq' : ¬ j.status = .canceled := by simp [hq]
  constructor
  · intro outcome e he
    rw [executeJob_reserve_error j l outcome a e hq' hest he]
    rw [failPath_no_credits _ _ _ _ (by simp [startJob, hcr])]
    exact ⟨by simp [on_failure_job], by simp [on_failure_job], rfl, rfl⟩
  · intro txn l1 htxn
    obtain ⟨h1a, hle, htxneq, hbal1, hother, htxns1⟩ := reserve_ok_inv htxn
    have habs : |txn.amount| = a := by
      subst htxneq
      show |(-a)| = a
      rw [abs_neg]
      exact abs_of_pos (by omega)
    rw [executeJob_reserve_ok_err j l cbs msg a txn l1 hq' hest htxn, habs]
    obtain ⟨hid, hreq, hst, hcrF, herrF⟩ :=
      applyStages_fst cbs { startJob j with credits_reserved := a }
    set jf := (applyStages { startJob j with credits_reserved := a } cbs).1 with hjf
    have hcrF' : jf.credits_reserved = a := by simp [hcrF]
    have hreq' : jf.request = j.request := by simp [hreq, startJob]
    have hid' : jf.id = j.id := by simp [hid, startJob]
    rw [failPath_with_credits _ _ _ _ (by omega)]
    refine ⟨by simp [on_failure_job], by simp [on_failure_job], ?_, ?_, ?_⟩
    · simp only [get_balance, hreq', hcrF', if_pos]
      have : l1.balances j.request.user_id = l.balances j.request.user_id - a := hbal1
      simp [this]
    · simp only [hreq', hcrF', hid', htxns1]
      rw [List.append_assoc]
      rfl
    · refine refundCount_append_pair l _ txn
        ⟨j.request.user_id, a, .refund, "job_refund", some j.id⟩ j.id ?_ ?_ rfl rfl
      · simp only [hreq', hcrF', hid', htxns1]
        rw [List.append_assoc]
        rfl
      · subst htxneq
        rfl

theorem executeJob_failure_compensation_witness :
    (executeJob job0 tenLedger (.err [] "boom")).job.status = .failed ∧
    (executeJob job0 tenLedger (.err [] "boom")).job.error = some "boom" ∧
    get_balance (executeJob job0 tenLedger (.err [] "boom")).ledger "u1" = 10 ∧
    refundCount (executeJob job0 tenLedger (.err [] "boom")).ledger "j0" =
      refundCount tenLedger "j0" + 1 := by
  have h := (executeJob_failure_compensation job0 tenLedger [] "boom" 4
    rfl rfl rfl).2 reservedPair0.1 reservedPair0.2 rfl
  exact ⟨h.1, h.2.1, h.2.2.1.trans rfl, h.2.2.2.2⟩

/-- C2 counterexample: a concrete failed run (job0 reserves 4 credits from a
balance of 10, the runner raises "boom") in which the compensating refund has
been issued — exactly one refund transaction for the job is in the log — yet
the final job state still carries `credits_reserved = 4`: `_on_failure` never
resets it to 0 after the refund, so "after the compensating refund it is 0
again" is false. -/
theorem credits_reserved_not_reset_counterexample :
    refundCount (executeJob job0 tenLedger (.err [] "boom")).ledger "j0" = 1 ∧
    (executeJob job0 tenLedger (.err [] "boom")).job.status = .failed ∧
    (executeJob job0 tenLedger (.err [] "boom")).job.credits_reserved = 4 :=
  ⟨rfl, rfl, rfl⟩

/-- C2 (amended: after the compensating refund `credits_reserved` is NOT
reset to 0 — it retains the reserved amount for the rest of the job's life;
the remainder of the invariant holds): for a queued job with no prior
reservation, at most one refund is issued per execution; the registry state
written before the reservation (the `running`/`"starting"` transition) has
`credits_reserved = 0`; if the reservation does not succeed it is 0 in the
final state too and no refund is issued; if the reservation succeeds it
equals the reserved amount in every subsequently written state including the
final one — even after the failure path has issued its single refund. -/
theorem credits_reserved_lifecycle (j : ManagedJob) (l : LedgerState)
    (outcome : RunnerOutcome) (a : ℤ)
    (hq : j.status = .queued) (hcr : j.credits_reserved = 0)
    (hest : j.request.estimated_credits = some a) :
    refundCount (executeJob j l outcome).ledger j.id ≤ refundCount l j.id + 1 ∧
    (∀ s ∈ (executeJob j l outcome).trace.head?, s.credits_reserved = 0) ∧
    (¬ reserveOk l j.request.user_id a →
      (executeJob j l outcome).job.credits_reserved = 0 ∧
      refundCount (executeJob j l outcome).ledger j.id = refundCount l j.id) ∧
    (reserveOk l j.request.user_id a →
      (executeJob j l outcome).job.credits_reserved = a ∧ 1 ≤ a ∧
      ∀ s ∈ (executeJob j l outcome).trace.tail, s.credits_reserved = a) := by
  have hq' : ¬ j.status = .canceled := by simp [hq]
  by_cases hok : reserveOk l j.request.user_id a
  · obtain ⟨h1a, hle⟩ := hok
    have htxn := reserve_ok_eq l j.request.user_id a j.id h1a hle
    set rtxn : Txn := ⟨j.request.user_id, -a, .reserve, "job_reserve", some j.id⟩
      with hrtxn
    set rl : LedgerState :=
      { balances := fun x =>
          if x = j.request.user_id
          then l.balances j.request.user_id - a
          else l.balances x,
        txns := l.txns ++ [rtxn] } with hrl
    have habs : |rtxn.amount| = a := by
      show |(-a)| = a
      rw [abs_neg]
      exact abs_of_pos (by omega)
    have hrcount : refundCount rl j.id = refundCount l j.id :=
      refundCount_append_nonrefund l rl rtxn j.id rfl rfl
    cases outcome with
    | ok cbs =>
      rw [executeJob_reserve_ok_ok j l cbs a rtxn rl hq' hest htxn, habs]
      refine ⟨?_, ?_, fun hcon => absurd ⟨h1a, hle⟩ hcon, ?_⟩
      · show refundCount rl j.id ≤ refundCount l j.id + 1
        omega
      · intro s hs
        simp only [List.cons_append, List.head?_cons, Option.mem_some_iff] at hs
        subst hs
        simp [startJob, hcr]
      · intro _
        refine ⟨(applyStages_credits cbs _).trans rfl, h1a, ?_⟩
        intro s hs
        simp at hs
        rcases hs with hs | hs | hs
        · subst hs
          rfl
        · exact ((applyStages_trace cbs _ s hs).2).trans rfl
        · subst hs
          exact (applyStages_credits cbs _).trans rfl
    | err cbs msg =>
      rw [executeJob_reserve_ok_err j l cbs msg a rtxn rl hq' hest htxn, habs]
      obtain ⟨hid, hreq, hst, hcrF, herrF⟩ :=
        applyStages_fst cbs { startJob j with credits_reserved := a }
      set jf := (applyStages { startJob j with credits_reserved := a } cbs).1
        with hjf
      have hcrF' : jf.credits_reserved = a := by simp [hcrF]
      have hid' : jf.id = j.id := by simp [hid, startJob]
      rw [failPath_with_credits _ _ _ _ (by omega)]
      refine ⟨?_, ?_, fun hcon => absurd ⟨h1a, hle⟩ hcon, ?_⟩
      · refine le_of_eq (refundCount_append_pair l _ rtxn
          ⟨jf.request.user_id, jf.credits_reserved, .refund, "job_refund",
            some jf.id⟩ j.id ?_ rfl rfl ?_)
        · show rl.txns ++ _ = l.txns ++ _
          have hx : rl.txns = l.txns ++ [rtxn] := rfl
          rw [hx, List.append_assoc]
          rfl
        · show some jf.id = some j.id
          rw [hid']
      · intro s hs
        simp only [List.cons_append, List.head?_cons, Option.mem_some_iff] at hs
        subst hs
        simp [startJob, hcr]
      · intro _
        refine ⟨by simp [on_failure_job, hcrF'], h1a, ?_⟩
        intro s hs
        simp at hs
        rcases hs with hs | hs | hs
        · subst hs
          rfl
        · exact ((applyStages_trace cbs _ s hs).2).trans rfl
        · subst hs
          simp [on_failure_job, hcrF']
  · obtain ⟨e, he⟩ := reserve_error_of_not_ok l j.request.user_id a j.id hok
    rw [executeJob_reserve_error j l outcome a e hq' hest he]
    rw [failPath_no_credits _ _ _ _ (by simp [startJob, hcr])]
    refine ⟨by show refundCount l j.id ≤ refundCount l j.id + 1; omega, ?_,
      fun _ => ⟨by simp [on_failure_job, startJob, hcr], rfl⟩,
      fun hcon => absurd hcon hok⟩
    intro s hs
    simp only [List.singleton_append, List.head?_cons, Option.mem_some_iff] at hs
    subst hs
    simp [startJob, hcr]

theorem credits_reserved_lifecycle_witness :
    (executeJob job0 tenLedger (.err [] "boom")).job.credits_reserved = 4 ∧
    (1:ℤ) ≤ 4 ∧
    refundCount (executeJob job0 tenLedger (.err [] "boom")).ledger "j0" ≤
      refundCount tenLedger "j0" + 1 := by
  have h := credits_reserved_lifecycle job0 tenLedger (.err [] "boom") 4 rfl rfl rfl
  have hok : reserveOk tenLedger job0.request.user_id 4 := ⟨by decide, by decide⟩
  exact ⟨(h.2.2.2 hok).1, (h.2.2.2 hok).2.1, h.1⟩

/-- C4 (code-bug evaluation at the failing input of the repo's own test
`test_job_manager_autofills_models_and_credits`, which asserts
`view.output_path is not None` under an "outputs" directory): `create_job`
does resolve the models and the credit estimate and registers the job in
`queued` — but its `model_copy(update=...)` updates only the four model/credit
fields, so an omitted `output_path` stays `None`; no default output path is
ever computed on this path (`default_output_path` is only called by the local
serial-run code). -/
theorem create_job_leaves_output_path_unset :
    (create_job testReq "job-1").status = .queued ∧
    (create_job testReq "job-1").stage = "queued" ∧
    (create_job testReq "job-1").credits_reserved = 0 ∧
    (create_job testReq "job-1").request.detector_model =
      some "rtdetrv2-l-candidate" ∧
    (create_job testReq "job-1").request.restorer_model =
      some "rvrt-base-candidate" ∧
    (create_job testReq "job-1").request.refiner_model =
      some "swinir-video-refiner-candidate" ∧
    (create_job testReq "job-1").request.estimated_credits = some 2 ∧
    testReq.output_path = none ∧
    (create_job testReq "job-1").request.output_path = none :=
  ⟨rfl, rfl, rfl, rfl, rfl, rfl, rfl, rfl, rfl⟩

/-- C7: `cancel_job` transitions a job to canceled exactly when it is
`queued`; for an unknown id it returns the not-found signal with the registry
unchanged; a job that is already running or terminal is returned unchanged
with the registry unchanged; and a job whose status is `canceled` when the
worker dequeues it is skipped untouched — the execution procedure returns the
job and ledger unchanged with an empty write trace, so a job canceled while
queued never reaches `running`. -/
theorem cancel_job_spec (jobs : List (String × ManagedJob)) (job_id : String)
    (l : LedgerState) (outcome : RunnerOutcome) :
    (jobs.lookup job_id = none → cancel_job jobs job_id = (jobs, none)) ∧
    (∀ j, jobs.lookup job_id = some j → j.status = .queued →
      cancel_job jobs job_id =
        (updateJob jobs job_id { j with status := .canceled, stage := "canceled" },
         some { j with status := .canceled, stage := "canceled" })) ∧
    (∀ j, jobs.lookup job_id = some j → j.status ≠ .queued →
      cancel_job jobs job_id = (jobs, some j)) ∧
    (∀ j : ManagedJob, j.status = .canceled →
      executeJob j l outcome = ⟨j, l, []⟩ ∧
      (executeJob j l outcome).job.status = .canceled ∧
      ∀ s ∈ (executeJob j l outcome).trace, s.status ≠ .running) := by
  refine ⟨?_, ?_, ?_, ?_⟩
  · intro h
    simp [cancel_job, h]
  · intro j hj hqj
    simp [cancel_job, hj, hqj]
  · intro j hj hqj
    simp [cancel_job, hj, hqj]
  · intro j hc
    have hx := executeJob_canceled j l outcome hc
    refine ⟨hx, ?_, ?_⟩
    · rw [hx]
      exact hc
    · rw [hx]
      intro s hs
      simp at hs

def queuedJob : ManagedJob := create_job testReq "jq"

def finishedJob : ManagedJob :=
  { create_job testReq "jr" with status := .done, stage := "done" }

def sampleRegistry : List (String × ManagedJob) :=
  [("jq", queuedJob), ("jr", finishedJob)]

theorem cancel_job_spec_witness :
    cancel_job sampleRegistry "nope" = (sampleRegistry, none) ∧
    (cancel_job sampleRegistry "jq").2 =
      some { queuedJob with status := .canceled, stage := "canceled" } ∧
    cancel_job sampleRegistry "jr" = (sampleRegistry, some finishedJob) ∧
    executeJob { queuedJob with status := .canceled, stage := "canceled" }
        emptyLedger (.ok []) =
      ⟨{ queuedJob with status := .canceled, stage := "canceled" },
       emptyLedger, []⟩ := by
  have h1 := (cancel_job_spec sampleRegistry "nope" emptyLedger (.ok [])).1 rfl
  have h2 := (cancel_job_spec sampleRegistry "jq" emptyLedger (.ok [])).2.1
    queuedJob rfl rfl
  have h3 := (cancel_job_spec sampleRegistry "jr" emptyLedger (.ok [])).2.2.1
    finishedJob rfl (by decide)
  have h4 := ((cancel_job_spec sampleRegistry "x" emptyLedger (.ok [])).2.2.2
    { queuedJob with status := .canceled, stage := "canceled" } rfl).1
  exact ⟨h1, by rw [h2], h3, h4⟩

/-- C8: the Simulated Runner's callback progress sequence is exactly 0.05,
0.18, 0.40, 0.78, then 0.90 exactly when a (truthy) refiner model is
resolved, then 0.96, 1.0; the stage names are the fixed ordered list probing,
decoding, detecting, restoring, (refining,) encoding, muxing — the middle
three carrying the resolved model id in brackets; the sleep before each
callback is 0.9 for ultra, 0.7 for high, 0.45 for balanced, overridden by a
numeric `stage_sleep` option clamped below at 0; and a queued job executed
with this callback sequence under a sufficient balance ends `done` with
progress 1.0 and final stage in {"muxing", "done"} (`_on_done` records
"done"). -/
theorem dryRunRunner_spec (req : JobCreateRequest) (j : ManagedJob)
    (l : LedgerState) (a : ℤ)
    (hq : j.status = .queued)
    (hest : j.request.estimated_credits = some a)
    (hok : reserveOk l j.request.user_id a) :
    (pyTruthy req.refiner_model = true →
      (dryRunStages req).map Prod.snd =
        [1/20, 9/50, 2/5, 39/50, 9/10, 24/25, 1]) ∧
    (pyTruthy req.refiner_model = false →
      (dryRunStages req).map Prod.snd =
        [1/20, 9/50, 2/5, 39/50, 24/25, 1]) ∧
    (∀ rm, req.refiner_model = some rm → rm ≠ "" →
      (dryRunStages req).map Prod.fst =
        ["probing", "decoding",
         "detecting[" ++ optStr req.detector_model ++ "]",
         "restoring[" ++ optStr req.restorer_model ++ "]",
         "refining[" ++ rm ++ "]", "encoding", "muxing"]) ∧
    (req.options.lookup "stage_sleep" = none →
      dryRunStageSleep req =
        if req.quality_tier = .ultra then 9/10
        else if req.quality_tier = .high then 7/10 else 9/20) ∧
    (∀ v q, req.options.lookup "stage_sleep" = some v → pyNumeric v = some q →
      dryRunStageSleep req = max 0 q) ∧
    ((executeJob j l (.ok (dryRunStages req))).job.status = .done ∧
     (executeJob j l (.ok (dryRunStages req))).job.progress = 1 ∧
     ((executeJob j l (.ok (dryRunStages req))).job.stage = "muxing" ∨
      (executeJob j l (.ok (dryRunStages req))).job.stage = "done")) := by
  have hq' : ¬ j.status = .canceled := by simp [hq]
  obtain ⟨h1a, hle⟩ := hok
  have htxn := reserve_ok_eq l j.request.user_id a j.id h1a hle
  refine ⟨?_, ?_, ?_, ?_, ?_, ?_⟩
  · intro ht
    rcases hrm : req.refiner_model with _ | s
    · rw [hrm] at ht
      simp [pyTruthy] at ht
    · rw [hrm] at ht
      have hs : ¬ s = "" := by
        simpa [pyTruthy] using ht
      simp [dryRunStages, hrm, hs]
  · intro ht
    rcases hrm : req.refiner_model with _ | s
    · simp [dryRunStages, hrm]
    · rw [hrm] at ht
      have hs : s = "" := by
        simpa [pyTruthy] using ht
      simp [dryRunStages, hrm, hs]
  · intro rm hrm hne
    simp [dryRunStages, hrm, hne]
  · intro hnone
    simp [dryRunStageSleep, hnone]
  · intro v q hv hnum
    simp [dryRunStageSleep, hv, hnum]
  · rw [executeJob_reserve_ok_ok j l (dryRunStages req) a _ _ hq' hest htxn]
    exact ⟨rfl, rfl, Or.inr rfl⟩

theorem dryRunRunner_spec_witness :
    (executeJob job0 tenLedger (.ok (dryRunStages job0.request))).job.status
      = .done ∧
    (executeJob job0 tenLedger (.ok (dryRunStages job0.request))).job.progress
      = 1 ∧
    (dryRunStages job0.request).map Prod.snd =
      [1/20, 9/50, 2/5, 39/50, 9/10, 24/25, 1] ∧
    dryRunStageSleep job0.request = max 0 0 := by
  have h := dryRunRunner_spec job0.request job0 tenLedger 4 rfl rfl
    ⟨by decide, by decide⟩
  exact ⟨h.2.2.2.2.2.1, h.2.2.2.2.2.2.1, h.1 rfl,
    h.2.2.2.2.1 (.int 0) 0 rfl rfl⟩

/-! ## External-process runner supervision loop — `LadaCliRunner.run`
(src/vistora/services/runners.py)

The subprocess interaction is abstracted as a list of poll events: each
iteration of the `while True` loop either reads a ready line of child output
(carrying the digits of the first `(\d{1,3})\s*%` match when the regex
matches, `none` otherwise) or times out after the 0.3 s `select` interval, at
which point the elapsed wall time is read. The arithmetic on
`dynamic_progress` is transcribed exactly; 0.65 is 13/20, 0.6 is 3/5. -/

inductive PollEvent where
  | line (matched : Option ℕ)
  | idle (elapsed : ℚ)

inductive EmitSource where
  | pctLine
  | extrapolated
deriving DecidableEq, Repr

/-- `max(8.0, float(req.duration_hint_seconds or 30) * 1.2)`. -/
def ladaMaxExpected (duration_hint_seconds : Option ℤ) : ℚ :=
  max 8 ((pyOrInt duration_hint_seconds 30 : ℚ) * (6/5))

/-- The percentage branch:
`pct = max(0.0, min(100.0, float(match.group(1))))` followed by
`dynamic_progress = max(dynamic_progress, 0.3 + (pct / 100.0) * 0.65)`. -/
def ladaPctStep (dp : ℚ) (n : ℕ) : ℚ :=
  max dp (3/10 + (max 0 (min 100 (n : ℚ)) / 100) * (13/20))

/-- The extrapolation branch:
`guessed = min(0.93, 0.3 + (elapsed / max_expected) * 0.6)`. -/
def ladaGuess (maxExpected elapsed : ℚ) : ℚ :=
  min (93/100) (3/10 + (elapsed / maxExpected) * (3/5))

/-- The tagged progress emissions of the supervision loop, from
`dynamic_progress = dp` on: a percentage line emits
`("restoring", min(dynamic_progress, 0.95))`; an idle poll emits `guessed`
only when `guessed > dynamic_progress`, which then becomes the new
`dynamic_progress`. -/
def ladaLoop (maxExpected : ℚ) : List PollEvent → ℚ → List (EmitSource × ℚ)
  | [], _ => []
  | .line none :: rest, dp => ladaLoop maxExpected rest dp
  | .line (some n) :: rest, dp =>
    (.pctLine, min (ladaPctStep dp n) (19/20)) ::
      ladaLoop maxExpected rest (ladaPctStep dp n)
  | .idle elapsed :: rest, dp =>
    if dp < ladaGuess maxExpected elapsed then
      (.extrapolated, ladaGuess maxExpected elapsed) ::
        ladaLoop maxExpected rest (ladaGuess maxExpected elapsed)
    else ladaLoop maxExpected rest dp

/-- The full (stage, progress) callback sequence of `LadaCliRunner.run`:
probing(0.05), restoring(0.3) before the spawn, the supervision-loop
emissions with `dynamic_progress` starting at 0.3, and — on exit code 0 —
encoding(0.97) and done(1.0); a nonzero exit raises after the loop and emits
nothing further. -/
def ladaRun (duration_hint_seconds : Option ℤ) (events : List PollEvent)
    (exit_ok : Bool) : List (String × ℚ) :=
  [("probing", 1/20), ("restoring", 3/10)] ++
  (ladaLoop (ladaMaxExpected duration_hint_seconds) events (3/10)).map
    (fun e => ("restoring", e.2)) ++
  (if exit_ok then [("encoding", (97/100 : ℚ)), ("done", 1)] else [])

theorem mem_of_mem_getLast {α : Type} {l : List α} {x : α}
    (h : x ∈ l.getLast?) : x ∈ l := by
  rcases List.mem_getLast?_eq_getLast h with ⟨hne, hx⟩
  rw [hx]
  exact List.getLast_mem hne

theorem ladaPctStep_bounds (dp : ℚ) (n : ℕ) (h1 : 3/10 ≤ dp) (h2 : dp ≤ 19/20) :
    dp ≤ ladaPctStep dp n ∧ 3/10 ≤ ladaPctStep dp n ∧ ladaPctStep dp n ≤ 19/20 := by
  have hp0 : (0:ℚ) ≤ max 0 (min 100 (n:ℚ)) := le_max_left _ _
  have hp1 : max 0 (min 100 (n:ℚ)) ≤ 100 := max_le (by norm_num) (min_le_left _ _)
  refine ⟨le_max_left _ _, le_trans h1 (le_max_left _ _), max_le h2 ?_⟩
  linarith

/-- The loop invariant: starting from `dynamic_progress = dp ∈ [0.3, 0.95]`,
every emission is at least `dp` and at most 0.95, extrapolated emissions are
at most 0.93, and the emitted progress values are non-decreasing. -/
theorem ladaLoop_invariant (maxExpected : ℚ) (events : List PollEvent) :
    ∀ dp : ℚ, 3/10 ≤ dp → dp ≤ 19/20 →
      (∀ e ∈ ladaLoop maxExpected events dp,
        dp ≤ e.2 ∧ 3/10 ≤ e.2 ∧ e.2 ≤ 19/20 ∧
        (e.1 = .extrapolated → e.2 ≤ 93/100)) ∧
      (ladaLoop maxExpected events dp).Chain' (fun x y => x.2 ≤ y.2) := by
  induction events with
  | nil =>
    intro dp h1 h2
    simp [ladaLoop]
  | cons ev rest ih =>
    intro dp h1 h2
    cases ev with
    | line mn =>
      cases mn with
      | none =>
        simpa [ladaLoop] using ih dp h1 h2
      | some n =>
        obtain ⟨hle, h31, h95⟩ := ladaPctStep_bounds dp n h1 h2
        have hmin : min (ladaPctStep dp n) (19/20) = ladaPctStep dp n :=
          min_eq_left h95
        obtain ⟨ihmem, ihchain⟩ := ih (ladaPctStep dp n) h31 h95
        constructor
        · intro e he
          simp only [ladaLoop, hmin, List.mem_cons] at he
          rcases he with he | he
          · subst he
            exact ⟨hle, h31, h95, by intro hx; simp at hx⟩
          · obtain ⟨ha, hb, hc, hd⟩ := ihmem e he
            exact ⟨le_trans hle ha, hb, hc, hd⟩
        · simp only [ladaLoop, hmin]
          rw [List.chain'_cons']
          refine ⟨?_, ihchain⟩
          intro b hb
          exact (ihmem b (List.mem_of_mem_head? hb)).1
    | idle elapsed =>
      by_cases hg : dp < ladaGuess maxExpected elapsed
      · have h93 : ladaGuess maxExpected elapsed ≤ 93/100 := min_le_left _ _
        have h31 : 3/10 ≤ ladaGuess maxExpected elapsed := le_trans h1 (le_of_lt hg)
        have h95 : ladaGuess maxExpected elapsed ≤ 19/20 :=
          le_trans h93 (by norm_num)
        obtain ⟨ihmem, ihchain⟩ := ih (ladaGuess maxExpected elapsed) h31 h95
        constructor
        · intro e he
          simp only [ladaLoop, if_pos hg, List.mem_cons] at he
          rcases he with he | he
          · subst he
            exact ⟨le_of_lt hg, h31, h95, fun _ => h93⟩
          · obtain ⟨ha, hb, hc, hd⟩ := ihmem e he
            exact ⟨le_trans (le_of_lt hg) ha, hb, hc, hd⟩
        · simp only [ladaLoop, if_pos hg]
          rw [List.chain'_cons']
          refine ⟨?_, ihchain⟩
          intro b hb
          exact (ihmem b (List.mem_of_mem_head? hb)).1
      · simp only [ladaLoop, if_neg hg]
        exact ih dp h1 h2

/-- C9: in the External-Process Runner's supervision loop, every progress
value emitted from a percentage-pattern line lies in the restoring-stage band
[0.30, 0.95]; every progress value produced by wall-time extrapolation is at
most 0.93; and the full sequence of progress values reported across a run —
probing(0.05), restoring(0.3), the loop emissions, and on success
encoding(0.97), done(1.0) — is non-decreasing. -/
theorem ladaRunner_progress_spec (duration_hint_seconds : Option ℤ)
    (events : List PollEvent) (exit_ok : Bool) :
    (∀ p : ℚ, (EmitSource.pctLine, p) ∈
        ladaLoop (ladaMaxExpected duration_hint_seconds) events (3/10) →
      3/10 ≤ p ∧ p ≤ 19/20) ∧
    (∀ p : ℚ, (EmitSource.extrapolated, p) ∈
        ladaLoop (ladaMaxExpected duration_hint_seconds) events (3/10) →
      p ≤ 93/100) ∧
    ((ladaRun duration_hint_seconds events exit_ok).map Prod.snd).Chain'
      (· ≤ ·) := by
  obtain ⟨hmem, hchain⟩ := ladaLoop_invariant (ladaMaxExpected duration_hint_seconds)
    events (3/10) le_rfl (by norm_num)
  set L := ladaLoop (ladaMaxExpected duration_hint_seconds) events (3/10) with hL
  refine ⟨?_, ?_, ?_⟩
  · intro p hp
    obtain ⟨-, hb, hc, -⟩ := hmem _ hp
    exact ⟨hb, hc⟩
  · intro p hp
    exact (hmem _ hp).2.2.2 rfl
  · have hmap : (ladaRun duration_hint_seconds events exit_ok).map Prod.snd =
        [1/20, 3/10] ++ (L.map Prod.snd ++
          (if exit_ok then [(97/100 : ℚ), 1] else [])) := by
      cases exit_ok <;> simp [ladaRun, hL, List.map_append, List.map_map]
    rw [hmap]
    have hchainL : (L.map Prod.snd).Chain' (· ≤ ·) := (List.chain'_map _).2 hchain
    have hchainT : (if exit_ok then [(97/100 : ℚ), 1] else []).Chain' (· ≤ ·) := by
      cases exit_ok
      · simp
      · norm_num [List.chain'_pair]
    have hLlow : ∀ x ∈ L.map Prod.snd, (3/10 : ℚ) ≤ x := by
      intro x hx
      obtain ⟨e, he, hex⟩ := List.mem_map.1 hx
      rw [← hex]
      exact (hmem e he).2.1
    have hLhigh : ∀ x ∈ L.map Prod.snd, x ≤ (19/20 : ℚ) := by
      intro x hx
      obtain ⟨e, he, hex⟩ := List.mem_map.1 hx
      rw [← hex]
      exact (hmem e he).2.2.1
    have hmid : (L.map Prod.snd ++
        (if exit_ok then [(97/100 : ℚ), 1] else [])).Chain' (· ≤ ·) := by
      refine List.chain'_append.2 ⟨hchainL, hchainT, ?_⟩
      intro x hx y hy
      have hx' : x ≤ 19/20 := hLhigh x (mem_of_mem_getLast hx)
      have hy' : (97/100 : ℚ) ≤ y := by
        cases exit_ok
        · simp at hy
        · simp at hy
          subst hy
          norm_num
      linarith
    refine List.chain'_append.2 ⟨List.chain'_pair.2 (by norm_num), hmid, ?_⟩
    intro x hx y hy
    have hx' : x = 3/10 := by
      simp at hx
      exact hx.symm
    subst hx'
    cases hLm : L.map Prod.snd with
    | nil =>
      rw [hLm, List.nil_append] at hy
      cases exit_ok
      · simp at hy
      · simp at hy
        subst hy
        norm_num
    | cons z zs =>
      rw [hLm, List.cons_append, List.head?_cons, Option.mem_some_iff] at hy
      rw [← hy]
      exact hLlow z (by rw [hLm]; exact List.mem_cons_self z zs)

theorem ladaRunner_progress_spec_witness :
    ((EmitSource.pctLine, (5/8 : ℚ)) ∈
        ladaLoop (ladaMaxExpected none)
          [.line (some 50), .idle 10, .line (some 80)] (3/10) ∧
      (3:ℚ)/10 ≤ 5/8 ∧ (5:ℚ)/8 ≤ 19/20) ∧
    ((EmitSource.extrapolated, (4/5 : ℚ)) ∈
        ladaLoop (ladaMaxExpected none) [.idle 30] (3/10) ∧
      (4:ℚ)/5 ≤ 93/100) ∧
    ((ladaRun none [.line (some 50), .idle 10, .line (some 80)] true).map
      Prod.snd).Chain' (· ≤ ·) := by
  have h1 := ladaRunner_progress_spec none
    [.line (some 50), .idle 10, .line (some 80)] true
  have h2 := ladaRunner_progress_spec none [.idle 30] true
  have hme : ladaMaxExpected none = 36 := by
    norm_num [ladaMaxExpected, pyOrInt]
  have hlist1 : ladaLoop (ladaMaxExpected none)
      [.line (some 50), .idle 10, .line (some 80)] (3/10) =
      [(.pctLine, 5/8), (.pctLine, 41/50)] := by
    rw [hme]
    norm_num [ladaLoop, ladaPctStep, ladaGuess, max_def, min_def]
  have hlist2 : ladaLoop (ladaMaxExpected none) [.idle 30] (3/10) =
      [(.extrapolated, 4/5)] := by
    rw [hme]
    norm_num [ladaLoop, ladaPctStep, ladaGuess, max_def, min_def]
  have hm1 : (EmitSource.pctLine, (5/8 : ℚ)) ∈
      ladaLoop (ladaMaxExpected none)
        [.line (some 50), .idle 10, .line (some 80)] (3/10) := by
    rw [hlist1]
    exact List.mem_cons_self _ _
  have hm2 : (EmitSource.extrapolated, (4/5 : ℚ)) ∈
      ladaLoop (ladaMaxExpected none) [.idle 30] (3/10) := by
    rw [hlist2]
    exact List.mem_cons_self _ _
  exact ⟨⟨hm1, (h1.1 _ hm1).1, (h1.1 _ hm1).2⟩, ⟨hm2, h2.2.1 _ hm2⟩, h1.2.2⟩

end Vistora